import Mathlib

/-!
Verification of the snakefish ring-buffer channel (src/channel.cpp, src/channel.h,
src/buffer.h) against its natural-language specification.

The channel state lives in shared memory; we model the shared data region as a
total function from byte offsets to byte values, and each channel operation as a
pure state transformer.  `memcpy` is modelled as a pointwise overwrite of a
destination function from a source function.  Machine `size_t` values are
modelled as `Nat`; the 8-byte little-endian representation used by the length
prefix is made explicit (`lenBytes` / `readLen`).
-/

namespace snakefish

/-- Number of bytes of a `size_t` on the target platform (`sizeof(size_t)`). -/
def size_t_size : Nat := 8

/-- Model of `memcpy(dst + dstOff, src + srcOff, cnt)` over byte memories
represented as functions from raw offsets to byte values. -/
def memcpy (dst : Nat → Nat) (dstOff : Nat) (src : Nat → Nat) (srcOff : Nat)
    (cnt : Nat) : Nat → Nat :=
  fun i => if dstOff ≤ i ∧ i < dstOff + cnt then src (srcOff + (i - dstOff)) else dst i

/-- Byte `i` of the in-memory (little-endian) representation of a `size_t`
value, as read through `(char *)&len`. -/
def lenBytes (len : Nat) : Nat → Nat :=
  fun i => len / 256 ^ i % 256

/-- Value obtained by reinterpreting 8 bytes as a `size_t`
(`*static_cast<size_t *>(len_bytes)`), little-endian. -/
def readLen (f : Nat → Nat) : Nat :=
  f 0 + 256 * (f 1 + 256 * (f 2 + 256 * (f 3 +
    256 * (f 4 + 256 * (f 5 + 256 * (f 6 + 256 * f 7))))))

/-- State of a `snakefish::channel`: the fixed capacity, the shared data
region, the two shared offsets (`start` = head, `end_` = tail), the shared
fullness flag, and the count of the `n_unread` readiness semaphore. -/
structure Channel where
  capacity : Nat
  shared_mem : Nat → Nat
  start : Nat
  end_ : Nat
  full : Bool
  n_unread : Nat

/-- Channel constructor (`channel::channel`): offsets start at 0, `full` is
false, the readiness count is 0; the data region content is unspecified in the
source, modelled as all zeroes. -/
def mkChannel (size : Nat) : Channel :=
  { capacity := size, shared_mem := fun _ => 0, start := 0, end_ := 0,
    full := false, n_unread := 0 }

/-- Available-space computation of `channel::send_bytes` (channel.cpp lines
53-61): `available_space` starts at 0 and is set by the if / else-if chain. -/
def availableSpace (capacity head tail : Nat) (full : Bool) : Nat :=
  if head < tail then capacity - (tail - head)
  else if head > tail then head - tail
  else if !full then capacity
  else 0

/-- Frame write of `channel::send_bytes` (channel.cpp lines 67-95): copy the
8-byte length prefix at `tail` (split at the wraparound point if needed), then
copy the payload at `(tail + 8) % capacity`.  Returns the new memory and the
final `new_end`.  Note that the non-wrapping payload branch copies `n` bytes,
exactly as line 87 of the source does. -/
def writeFrame (capacity : Nat) (mem : Nat → Nat) (tail : Nat)
    (bytes : Nat → Nat) (len : Nat) : (Nat → Nat) × Nat :=
  let n := size_t_size + len
  let new_end := (tail + size_t_size) % capacity
  let mem1 :=
    if new_end > tail then
      memcpy mem tail (lenBytes len) 0 size_t_size
    else
      let first_half_len := capacity - tail
      let second_half_len := size_t_size - first_half_len
      memcpy (memcpy mem tail (lenBytes len) 0 first_half_len)
        0 (lenBytes len) first_half_len second_half_len
  let tail2 := new_end
  let new_end2 := (tail2 + len) % capacity
  let mem2 :=
    if new_end2 > tail2 then
      memcpy mem1 tail2 bytes 0 n
    else
      let first_half_len := capacity - tail2
      let second_half_len := len - first_half_len
      memcpy (memcpy mem1 tail2 bytes 0 first_half_len)
        0 bytes first_half_len second_half_len
  (mem2, new_end2)

/-- Recoverable failures of the channel operations: `std::overflow_error`
thrown on a full buffer, and the propagated `std::runtime_error` when the
readiness-semaphore post fails. -/
inductive ChannelError where
  | overflow
  | postFailure
deriving DecidableEq

/-- `channel::send_bytes` (channel.cpp lines 43-110).  `semMax` is the maximal
count of the readiness semaphore; a post that would exceed it fails
(modelled from the spec, §4.2: `post()` fails if the underlying count would
overflow — the semaphore wrapper source is not under src/).  On an error the
returned channel is the caller-visible state at the throw point. -/
def sendBytes (semMax : Nat) (ch : Channel) (bytes : Nat → Nat) (len : Nat) :
    Channel × Option ChannelError :=
  if len = 0 then (ch, none)
  else
    let n := size_t_size + len
    let available_space := availableSpace ch.capacity ch.start ch.end_ ch.full
    if n > available_space then (ch, some ChannelError.overflow)
    else
      let wr := writeFrame ch.capacity ch.shared_mem ch.end_ bytes len
      let full2 := if n = available_space then true else ch.full
      let ch2 : Channel := { ch with shared_mem := wr.1, full := full2, end_ := wr.2 }
      if ch.n_unread + 1 > semMax then (ch2, some ChannelError.postFailure)
      else ({ ch2 with n_unread := ch.n_unread + 1 }, none)

/-- Outcome of `channel::receive_bytes`: a received payload, the
`std::out_of_range` thrown by a non-blocking receive on an empty channel, or a
blocking receive that would wait forever (no frame will ever be posted by this
sequential trace). -/
inductive RecvResult where
  | received (payload : List Nat)
  | empty
  | wouldBlock
deriving DecidableEq

/-- Whether a receive outcome delivered a payload. -/
def RecvResult.isReceived : RecvResult → Bool
  | RecvResult.received _ => true
  | _ => false

/-- `channel::receive_bytes` (channel.cpp lines 122-175).  The 8 header bytes
are assembled into `lenMem` exactly as the two `memcpy` calls into `len_buf`
do; the payload buffer content is the byte list produced by the corresponding
branch.  `full` is stored false and `start` advanced unconditionally. -/
def receiveBytes (ch : Channel) (block : Bool) : Channel × RecvResult :=
  if ch.n_unread = 0 then
    (ch, if block then RecvResult.wouldBlock else RecvResult.empty)
  else
    let ch1 : Channel := { ch with n_unread := ch.n_unread - 1 }
    let head := ch1.start
    let new_start := (head + size_t_size) % ch1.capacity
    let lenMem : Nat → Nat :=
      if new_start > head then
        fun i => ch1.shared_mem (head + i)
      else
        let first_half_len := ch1.capacity - head
        fun i =>
          if i < first_half_len then ch1.shared_mem (head + i)
          else ch1.shared_mem (i - first_half_len)
    let len := readLen lenMem
    let head2 := new_start
    let new_start2 := (head2 + len) % ch1.capacity
    let payload : List Nat :=
      if new_start2 > head2 then
        (List.range len).map (fun i => ch1.shared_mem (head2 + i))
      else
        let first_half_len := ch1.capacity - head2
        let second_half_len := len - first_half_len
        (List.range first_half_len).map (fun i => ch1.shared_mem (head2 + i)) ++
          (List.range second_half_len).map (fun i => ch1.shared_mem i)
    ({ ch1 with start := new_start2, full := false }, RecvResult.received payload)

/-- The available-space computation as stated by the specification (§4.3),
written from the spec's four cases for comparison with the source computation
`availableSpace`. -/
def availableSpaceSpec (capacity head tail : Nat) (full : Bool) : Nat :=
  if head < tail then capacity - (tail - head)
  else if head > tail then head - tail
  else if head = tail ∧ full = false then capacity
  else 0

/-- Allocation origin of a `buffer` (buffer.h line 15). -/
inductive buffer_type where
  | MALLOC
  | MMAP
deriving DecidableEq

/-- `snakefish::buffer` (buffer.h lines 22-84): an owning wrapper holding a raw
pointer (modelled as a `Nat` address), a length and an origin tag. -/
structure buffer where
  buf : Nat
  len : Nat
  type : buffer_type
deriving DecidableEq

/-- Defaulted move constructor `buffer(buffer &&t) = default` (buffer.h line
42): member-wise move of a raw pointer, a `size_t` and an enum is a member-wise
copy, so the moved-to object receives the same members and the moved-from
object keeps them.  Returns (moved-to, moved-from). -/
def buffer.moveDefault (t : buffer) : buffer × buffer :=
  ({ buf := t.buf, len := t.len, type := t.type }, t)

/-- Modelled from the spec: the destructor body lives in buffer.cpp, which is
not under src/; §4.1 says it "releases memory via the origin-appropriate
mechanism" (free / munmap on `buf`).  `released` counts, per address, how many
times that address has been released; destroying `b` releases `b.buf` once. -/
def buffer.dtorRelease (released : Nat → Nat) (b : buffer) : Nat → Nat :=
  fun a => if a = b.buf then released a + 1 else released a

/-- One channel operation of a sequential trace: a send with its source memory
and payload length, or a (blocking or non-blocking) receive. -/
inductive Op where
  | send (src : Nat → Nat) (len : Nat)
  | recv (block : Bool)

/-- Frame size (`8 + payload length`) totalled over a list of sends. -/
def frameSum (L : List ((Nat → Nat) × Nat)) : Nat :=
  (L.map (fun p => size_t_size + p.2)).sum

/-- Run a list of sends in order; the boolean is true iff every send completed
without an error. -/
def runSends (semMax : Nat) : Channel → List ((Nat → Nat) × Nat) → Channel × Bool
  | ch, [] => (ch, true)
  | ch, p :: rest =>
      let res := sendBytes semMax ch p.1 p.2
      let r2 := runSends semMax res.1 rest
      (r2.1, res.2.isNone && r2.2)

/-- Run a trace of operations, counting error-free sends (`s`), error-free
sends with a nonzero payload (`sp`), and receives that delivered a payload
(`r`). -/
def runTrace (semMax : Nat) :
    Channel → Nat → Nat → Nat → List Op → Channel × Nat × Nat × Nat
  | ch, s, sp, r, [] => (ch, s, sp, r)
  | ch, s, sp, r, Op.send src len :: ops =>
      let res := sendBytes semMax ch src len
      runTrace semMax res.1
        (if res.2.isNone then s + 1 else s)
        (if res.2.isNone && decide (0 < len) then sp + 1 else sp)
        r ops
  | ch, s, sp, r, Op.recv b :: ops =>
      let res := receiveBytes ch b
      runTrace semMax res.1 s sp
        (if res.2.isReceived then r + 1 else r) ops

/-- Sender-side source memory holding the bytes of `L` followed by zero bytes
(the bytes an out-of-bounds read past the payload would observe). -/
def srcOf (L : List Nat) : Nat → Nat :=
  fun i => L.getD i 0

/-- Payload of the first frame of the concrete trace (2 bytes). -/
def payloadA : List Nat := [161, 162]

/-- Payload of the second frame of the concrete trace (12 bytes). -/
def payloadB : List Nat :=
  [200, 201, 202, 203, 204, 205, 206, 207, 208, 209, 210, 211]

/-- Concrete trace on a capacity-32 channel, step 1: send `payloadA`. -/
def traceStep1 : Channel × Option ChannelError :=
  sendBytes 10 (mkChannel 32) (srcOf payloadA) 2

/-- Concrete trace, step 2: receive (returns `payloadA`). -/
def traceStep2 : Channel × RecvResult :=
  receiveBytes traceStep1.1 false

/-- Concrete trace, step 3: send `payloadB` (12 bytes; frame size 20). -/
def traceStep3 : Channel × Option ChannelError :=
  sendBytes 10 traceStep2.1 (srcOf payloadB) 12

/-- Concrete trace, step 4 for claim C2: send 4 payload bytes `[21,22,23,24]`
from a source memory whose next (out-of-bounds) byte is 5.  Frame size 12
equals the available space. -/
def c2Step4 : Channel × Option ChannelError :=
  sendBytes 10 traceStep3.1 (srcOf [21, 22, 23, 24, 5]) 4

/-- Concrete trace, final receive for claim C2. -/
def c2Final : Channel × RecvResult :=
  receiveBytes c2Step4.1 false

/-- Concrete trace, step 4 for claim C10: as `c2Step4` but the source memory
past the payload holds zero bytes. -/
def c10Step4 : Channel × Option ChannelError :=
  sendBytes 10 traceStep3.1 (srcOf [21, 22, 23, 24]) 4

/-- Channel state after a single 4-byte send on a fresh capacity-32 channel,
from a source whose bytes past the payload are all 9 (claim C1). -/
def c1After : Channel :=
  (sendBytes 10 (mkChannel 32) (srcOf [1, 2, 3, 4, 9, 9, 9, 9, 9, 9, 9, 9]) 4).1

/-- Claim C1: false on the code (code bug, flagged by the spec itself).  On a
fresh capacity-32 channel, sending the 4-byte payload `[1,2,3,4]` writes the
header at offsets 0-7 and should write exactly the 4 payload bytes at offsets
8-11; instead the non-wrapping payload branch copies `n = 12` bytes, so the
out-of-bounds source bytes (here 9) land at offsets 12-19, while offset 20 is
untouched. -/
theorem c1_payload_copy_copies_n_bytes :
    c1After.shared_mem 8 = 1 ∧ c1After.shared_mem 11 = 4 ∧
    c1After.shared_mem 12 = 9 ∧ c1After.shared_mem 19 = 9 ∧
    c1After.shared_mem 20 = 0 ∧ (mkChannel 32).shared_mem 12 = 0 := by
  decide

/-- Claim C2: false on the code (consequence of the C1 copy bug).  On a
capacity-32 channel: send `payloadA` (frame 10 ≤ 32 free), receive it back
intact, send `payloadB` (frame 20 ≤ 32 free), send `[21,22,23,24]` (frame 12 =
exactly the 12 free bytes, so in-flight never exceeds capacity).  The fourth
send's non-wrapping payload copy of `n = 12` bytes overruns offsets 10-17,
overwriting the buffered header of `payloadB` with the sender's out-of-bounds
bytes `[5,0,...,0]`; the next receive, whose oldest pending frame is
`payloadB`, returns only `[200,201,202,203,204]` instead of the 12 bytes of
`payloadB`. -/
theorem c2_fifo_round_trip_broken :
    traceStep1.2 = none ∧ traceStep3.2 = none ∧ c2Step4.2 = none ∧
    traceStep2.2 = RecvResult.received payloadA ∧
    c2Final.2 = RecvResult.received [200, 201, 202, 203, 204] ∧
    RecvResult.received [200, 201, 202, 203, 204] ≠ RecvResult.received payloadB := by
  decide

/-- Claim C10: false on the code (consequence of the C1 copy bug).  In the
state reached by the fitting sends of the concrete trace with zero garbage
bytes (`c10Step4`), the buffered header of the oldest frame has been
overwritten with zeroes, so the receive decodes length 0; its payload copy then
takes the wrapping branch (the cursor `(18 + 0) % 32 = 18` is not past the
offset 18) with `first_half_len = 32 - 18 = 14` strictly greater than the copy
size 0, so `second_half_len = size - first_half_len` underflows; the returned
buffer holds 14 bytes although its length field says 0. -/
theorem c10_wrap_branch_first_half_exceeds_size :
    c10Step4.2 = none ∧
    c10Step4.1.start = 10 ∧
    readLen (fun i => c10Step4.1.shared_mem (10 + i)) = 0 ∧
    ¬ (((c10Step4.1.start + size_t_size) % c10Step4.1.capacity +
          readLen (fun i => c10Step4.1.shared_mem (10 + i))) % c10Step4.1.capacity >
        (c10Step4.1.start + size_t_size) % c10Step4.1.capacity) ∧
    c10Step4.1.capacity - (c10Step4.1.start + size_t_size) % c10Step4.1.capacity >
      readLen (fun i => c10Step4.1.shared_mem (10 + i)) ∧
    (receiveBytes c10Step4.1 false).2 =
      RecvResult.received
        [200, 201, 202, 203, 204, 205, 206, 207, 208, 209, 210, 211, 4, 0] := by
  decide

/-- Claim C3, counterexample: a zero-length send on a channel with zero
available space has frame size `n = 8 > 0 = available`, yet it does not fail
with the buffer-overflow condition: `send_bytes` returns as a no-op before the
space check. -/
theorem c3_zero_length_send_not_rejected :
    availableSpace 32 5 5 true < size_t_size + 0 ∧
    (sendBytes 10 (Channel.mk 32 (fun _ => 0) 5 5 true 0) (fun _ => 0) 0).2 = none := by
  decide

/-- Claim C4: false on the code.  `buffer`'s defaulted move constructor copies
the raw pointer and leaves the moved-from instance still holding it, so
destroying the moved-to and the moved-from instance releases address 1000
twice, not exactly once. -/
theorem c4_double_release_after_move :
    buffer.dtorRelease
        (buffer.dtorRelease (fun _ => 0)
          (buffer.moveDefault (buffer.mk 1000 16 buffer_type.MALLOC)).1)
        (buffer.moveDefault (buffer.mk 1000 16 buffer_type.MALLOC)).2 1000 = 2 ∧
    (buffer.moveDefault (buffer.mk 1000 16 buffer_type.MALLOC)).2.buf = 1000 := by
  decide

/-- Claim C9, counterexample: after the single-operation trace consisting of a
zero-length send, the number of error-free `send_bytes` calls is 1 and the
number of successful receives is 0, but the readiness-semaphore count is 0,
not 1: a zero-length send returns successfully without posting. -/
theorem c9_zero_length_send_not_posted :
    (runTrace 5 (mkChannel 32) 0 0 0 [Op.send (fun _ => 0) 0]).2.1 = 1 ∧
    (runTrace 5 (mkChannel 32) 0 0 0 [Op.send (fun _ => 0) 0]).2.2.2 = 0 ∧
    (runTrace 5 (mkChannel 32) 0 0 0 [Op.send (fun _ => 0) 0]).1.n_unread = 0 ∧
    (0 : Nat) ≠ 1 - 0 := by
  decide

/-- Available space on a channel whose head is 0 and fullness flag false is
`capacity - tail` (used for fill sequences). -/
theorem avail_zero_head (cap s : Nat) : availableSpace cap 0 s false = cap - s := by
  unfold availableSpace
  rcases Nat.eq_zero_or_pos s with hs | hs
  · subst hs; simp
  · rw [if_pos hs]; omega

/-- Claim C3 (amended: with a nonzero payload length): a send whose frame size
`8 + len` strictly exceeds the available space fails with the buffer-overflow
condition and returns the channel exactly as it was — head, tail, full, the
data region and the readiness count are all untouched. -/
theorem c3_overflow_send_rejected_unchanged (semMax : Nat) (ch : Channel)
    (bytes : Nat → Nat) (len : Nat) (hlen : 0 < len)
    (hover : availableSpace ch.capacity ch.start ch.end_ ch.full < size_t_size + len) :
    sendBytes semMax ch bytes len = (ch, some ChannelError.overflow) := by
  simp only [sendBytes]
  rw [if_neg (show ¬ len = 0 by omega)]
  rw [if_pos (show size_t_size + len >
    availableSpace ch.capacity ch.start ch.end_ ch.full by omega)]

/-- Witness for claim C3's amended theorem: a 1-byte send on a full channel
(head = tail = 5, full) is rejected with the overflow error and the state is
returned unchanged. -/
theorem c3_overflow_send_rejected_unchanged_witness :
    0 < 1 ∧
    availableSpace 32 5 5 true < size_t_size + 1 ∧
    sendBytes 10 (Channel.mk 32 (fun _ => 0) 5 5 true 0) (fun _ => 0) 1 =
      (Channel.mk 32 (fun _ => 0) 5 5 true 0, some ChannelError.overflow) :=
  ⟨by decide, by decide,
    c3_overflow_send_rejected_unchanged 10 (Channel.mk 32 (fun _ => 0) 5 5 true 0)
      (fun _ => 0) 1 (by decide) (by decide)⟩

/-- Claim C5: a non-blocking receive on a channel with no pending frame (a
readiness count of zero) fails with the out-of-range (empty-channel) condition
and returns the channel state exactly unchanged. -/
theorem c5_empty_nonblocking_receive_unchanged (ch : Channel)
    (h : ch.n_unread = 0) :
    receiveBytes ch false = (ch, RecvResult.empty) := by
  simp [receiveBytes, h]

/-- Witness for claim C5: a fresh channel has readiness count zero, and a
non-blocking receive on it returns the empty-channel failure with the state
unchanged. -/
theorem c5_empty_nonblocking_receive_unchanged_witness :
    (mkChannel 32).n_unread = 0 ∧
    receiveBytes (mkChannel 32) false = (mkChannel 32, RecvResult.empty) :=
  ⟨rfl, c5_empty_nonblocking_receive_unchanged (mkChannel 32) rfl⟩

/-- Claim C6: for every head and tail in `[0, capacity)` and every fullness
flag, the available-space computation of `send_bytes` agrees with the
four-case formula stated by the spec. -/
theorem c6_available_space_formula (capacity head tail : Nat) (full : Bool)
    (h1 : head < capacity) (h2 : tail < capacity) :
    availableSpace capacity head tail full = availableSpaceSpec capacity head tail full := by
  unfold availableSpace availableSpaceSpec
  cases full <;> split_ifs <;> simp_all <;> omega

/-- Witness for claim C6 at head 1, tail 5, capacity 32, full = false. -/
theorem c6_available_space_formula_witness :
    1 < 32 ∧ 5 < 32 ∧
    availableSpace 32 1 5 false = availableSpaceSpec 32 1 5 false :=
  ⟨by decide, by decide, c6_available_space_formula 32 1 5 false (by decide) (by decide)⟩

/-- Claim C8: when the readiness-semaphore post at the end of `send_bytes`
fails (its count `semMax` is already at the maximum), the error propagates to
the sender, and at that point the frame bytes are already written into the
shared region (`shared_mem` is the `writeFrame` result) and `end_` and `full`
are already advanced to their post-send values, while the readiness count is
unchanged (the write is committed but not counted as available). -/
theorem c8_post_failure_after_committed_write (semMax : Nat) (ch : Channel)
    (bytes : Nat → Nat) (len : Nat) (hlen : 0 < len)
    (hfit : size_t_size + len ≤ availableSpace ch.capacity ch.start ch.end_ ch.full)
    (hsem : semMax ≤ ch.n_unread) :
    sendBytes semMax ch bytes len =
      ({ ch with
          shared_mem := (writeFrame ch.capacity ch.shared_mem ch.end_ bytes len).1,
          full := if size_t_size + len =
              availableSpace ch.capacity ch.start ch.end_ ch.full then true else ch.full,
          end_ := (writeFrame ch.capacity ch.shared_mem ch.end_ bytes len).2 },
       some ChannelError.postFailure) := by
  simp only [sendBytes]
  rw [if_neg (show ¬ len = 0 by omega)]
  rw [if_neg (show ¬ size_t_size + len >
    availableSpace ch.capacity ch.start ch.end_ ch.full by omega)]
  rw [if_pos (show ch.n_unread + 1 > semMax by omega)]

/-- Witness for claim C8: on a fresh channel whose semaphore has maximal count
0, a 1-byte send propagates the post failure while the write is committed. -/
theorem c8_post_failure_after_committed_write_witness :
    0 < 1 ∧
    size_t_size + 1 ≤
      availableSpace (mkChannel 32).capacity (mkChannel 32).start
        (mkChannel 32).end_ (mkChannel 32).full ∧
    0 ≤ (mkChannel 32).n_unread ∧
    sendBytes 0 (mkChannel 32) (fun _ => 7) 1 =
      ({ mkChannel 32 with
          shared_mem :=
            (writeFrame (mkChannel 32).capacity (mkChannel 32).shared_mem
              (mkChannel 32).end_ (fun _ => 7) 1).1,
          full := if size_t_size + 1 =
              availableSpace (mkChannel 32).capacity (mkChannel 32).start
                (mkChannel 32).end_ (mkChannel 32).full then true
            else (mkChannel 32).full,
          end_ :=
            (writeFrame (mkChannel 32).capacity (mkChannel 32).shared_mem
              (mkChannel 32).end_ (fun _ => 7) 1).2 },
       some ChannelError.postFailure) :=
  ⟨by decide, by decide, by decide,
    c8_post_failure_after_committed_write 0 (mkChannel 32) (fun _ => 7) 1
      (by decide) (by decide) (by decide)⟩

/-- Effect of one `send_bytes` call on the readiness count: it grows by one
exactly when the call completed without an error and the payload length is
nonzero (a zero-length send returns before posting; a failed post leaves the
count unchanged). -/
theorem sendBytes_n_unread (semMax : Nat) (ch : Channel) (bytes : Nat → Nat) (len : Nat) :
    (sendBytes semMax ch bytes len).1.n_unread =
      ch.n_unread +
        (if (sendBytes semMax ch bytes len).2.isNone && decide (0 < len) then 1 else 0) := by
  simp only [sendBytes]
  split_ifs <;> simp_all <;> omega

/-- Effect of one `receive_bytes` call on the readiness count: it drops by one
exactly when a payload was delivered. -/
theorem receiveBytes_n_unread (ch : Channel) (b : Bool) :
    (receiveBytes ch b).1.n_unread +
      (if (receiveBytes ch b).2.isReceived then 1 else 0) = ch.n_unread := by
  simp only [receiveBytes]
  split_ifs <;> simp_all [RecvResult.isReceived] <;> omega

/-- Trace invariant: along any trace, the readiness count plus the number of
successful receives, relative to the starting values, equals the number of
error-free nonzero-length sends. -/
theorem runTrace_count_invariant (semMax : Nat) (ops : List Op) :
    ∀ ch s sp r,
      (runTrace semMax ch s sp r ops).1.n_unread +
          (runTrace semMax ch s sp r ops).2.2.2 + sp =
        (runTrace semMax ch s sp r ops).2.2.1 + ch.n_unread + r := by
  induction ops with
  | nil => intro ch s sp r; simp only [runTrace]; omega
  | cons op ops ih =>
      intro ch s sp r
      cases op with
      | send src len =>
          have hsend := sendBytes_n_unread semMax ch src len
          simp only [runTrace]
          by_cases hc : ((sendBytes semMax ch src len).2.isNone && decide (0 < len)) = true
          · rw [if_pos hc] at hsend ⊢
            have := ih (sendBytes semMax ch src len).1
              (if (sendBytes semMax ch src len).2.isNone then s + 1 else s) (sp + 1) r
            omega
          · rw [if_neg hc] at hsend ⊢
            have := ih (sendBytes semMax ch src len).1
              (if (sendBytes semMax ch src len).2.isNone then s + 1 else s) sp r
            omega
      | recv b =>
          have hrecv := receiveBytes_n_unread ch b
          simp only [runTrace]
          by_cases hc : (receiveBytes ch b).2.isReceived = true
          · rw [if_pos hc] at hrecv ⊢
            have := ih (receiveBytes ch b).1 s sp (r + 1)
            omega
          · rw [if_neg hc] at hrecv ⊢
            have := ih (receiveBytes ch b).1 s sp r
            omega

/-- Claim C9 (amended: counting the error-free `send_bytes` calls with a
nonzero payload length — a zero-length call returns successfully without
posting): in every state reachable from the initial channel state by a trace
of sends and receives, the readiness-semaphore count plus the number of
successful receives equals the number of such sends; equivalently the count is
their difference, the number of buffered frames not yet received. -/
theorem c9_count_equals_sends_minus_receives (semMax cap : Nat) (ops : List Op) :
    (runTrace semMax (mkChannel cap) 0 0 0 ops).1.n_unread +
      (runTrace semMax (mkChannel cap) 0 0 0 ops).2.2.2 =
    (runTrace semMax (mkChannel cap) 0 0 0 ops).2.2.1 := by
  have h := runTrace_count_invariant semMax ops (mkChannel cap) 0 0 0
  have h0 : (mkChannel cap).n_unread = 0 := rfl
  omega


/-- Frame write during a pure fill (head 0, frame fits up to `cap`): the final
cursor is `(s + 8 + len) % cap`, offsets below the old tail `s` are untouched,
and the 8 header bytes at `s` hold the length encoding.  (During such a write
the header copy never wraps, and the payload copy either stays below `cap` or
ends exactly at `cap`, where the wrapping branch has a zero-length second
half.) -/
theorem writeFrame_fill (cap : Nat) (mem : Nat → Nat) (s : Nat) (bytes : Nat → Nat)
    (len : Nat) (hl : 0 < len) (hfit : s + size_t_size + len ≤ cap) :
    (writeFrame cap mem s bytes len).2 = (s + size_t_size + len) % cap ∧
    (∀ i, i < s → (writeFrame cap mem s bytes len).1 i = mem i) ∧
    (∀ i, i < size_t_size → (writeFrame cap mem s bytes len).1 (s + i) = lenBytes len i) := by
  have h8 : s + size_t_size < cap := by unfold size_t_size at *; omega
  have hmod8 : (s + size_t_size) % cap = s + size_t_size := Nat.mod_eq_of_lt h8
  simp only [writeFrame, hmod8]
  rw [if_pos (show s + size_t_size > s by unfold size_t_size; omega)]
  refine ⟨trivial, ?_, ?_⟩
  · intro i hi
    rcases Nat.lt_or_ge (s + size_t_size + len) cap with hlt | hge
    · rw [if_pos (show (s + size_t_size + len) % cap > s + size_t_size by
        rw [Nat.mod_eq_of_lt hlt]; omega)]
      simp only [memcpy]
      rw [if_neg (by omega), if_neg (by omega)]
    · have heq : s + size_t_size + len = cap := by omega
      rw [if_neg (show ¬ (s + size_t_size + len) % cap > s + size_t_size by
        rw [heq, Nat.mod_self]; omega)]
      simp only [memcpy]
      rw [if_neg (by omega), if_neg (by omega), if_neg (by omega)]
  · intro i hi
    rcases Nat.lt_or_ge (s + size_t_size + len) cap with hlt | hge
    · rw [if_pos (show (s + size_t_size + len) % cap > s + size_t_size by
        rw [Nat.mod_eq_of_lt hlt]; omega)]
      simp only [memcpy]
      rw [if_neg (by omega), if_pos (by constructor <;> omega)]
      congr 1
      omega
    · have heq : s + size_t_size + len = cap := by omega
      rw [if_neg (show ¬ (s + size_t_size + len) % cap > s + size_t_size by
        rw [heq, Nat.mod_self]; omega)]
      simp only [memcpy]
      rw [if_neg (by omega), if_neg (by omega), if_pos (by constructor <;> omega)]
      congr 1
      omega

/-- One send during a pure fill (head 0, not full, nonzero payload, frame fits
in the remaining linear space, semaphore has room): it succeeds, keeps head 0,
advances tail by the frame size modulo capacity, sets `full` exactly when the
frame ends at capacity, increments the readiness count, leaves all bytes below
the old tail untouched and writes the length encoding at the old tail. -/
theorem fill_step (semMax : Nat) (ch : Channel) (bytes : Nat → Nat) (len : Nat)
    (h0 : ch.start = 0) (hf : ch.full = false) (hl : 0 < len)
    (hfit : ch.end_ + size_t_size + len ≤ ch.capacity)
    (hsem : ch.n_unread + 1 ≤ semMax) :
    (sendBytes semMax ch bytes len).2 = none ∧
    (sendBytes semMax ch bytes len).1.start = 0 ∧
    (sendBytes semMax ch bytes len).1.capacity = ch.capacity ∧
    (sendBytes semMax ch bytes len).1.n_unread = ch.n_unread + 1 ∧
    (sendBytes semMax ch bytes len).1.end_ =
      (ch.end_ + size_t_size + len) % ch.capacity ∧
    ((sendBytes semMax ch bytes len).1.full = true ↔
      ch.end_ + size_t_size + len = ch.capacity) ∧
    (∀ i, i < ch.end_ → (sendBytes semMax ch bytes len).1.shared_mem i = ch.shared_mem i) ∧
    (∀ i, i < size_t_size →
      (sendBytes semMax ch bytes len).1.shared_mem (ch.end_ + i) = lenBytes len i) := by
  have havail : availableSpace ch.capacity ch.start ch.end_ ch.full =
      ch.capacity - ch.end_ := by
    rw [h0, hf]; exact avail_zero_head _ _
  have hmain : sendBytes semMax ch bytes len =
      ({ ch with
          shared_mem := (writeFrame ch.capacity ch.shared_mem ch.end_ bytes len).1,
          full := if size_t_size + len =
              availableSpace ch.capacity ch.start ch.end_ ch.full then true else ch.full,
          end_ := (writeFrame ch.capacity ch.shared_mem ch.end_ bytes len).2,
          n_unread := ch.n_unread + 1 }, none) := by
    simp only [sendBytes]
    rw [if_neg (show ¬ len = 0 by omega)]
    rw [if_neg (show ¬ size_t_size + len >
      availableSpace ch.capacity ch.start ch.end_ ch.full by rw [havail]; omega)]
    rw [if_neg (show ¬ ch.n_unread + 1 > semMax by omega)]
  have hwf := writeFrame_fill ch.capacity ch.shared_mem ch.end_ bytes len hl hfit
  rw [hmain]
  refine ⟨rfl, h0, rfl, rfl, hwf.1, ?_, hwf.2.1, hwf.2.2⟩
  rw [havail, hf]
  by_cases heq : size_t_size + len = ch.capacity - ch.end_
  · rw [if_pos heq]; simp; omega
  · rw [if_neg heq]; simp; omega

/-- Frame-size sum of a cons cell. -/
theorem frameSum_cons (p : (Nat → Nat) × Nat) (rest : List ((Nat → Nat) × Nat)) :
    frameSum (p :: rest) = size_t_size + p.2 + frameSum rest := by
  simp [frameSum]

/-- Unfolding of `runSends` on the empty list. -/
theorem runSends_nil (semMax : Nat) (ch : Channel) :
    runSends semMax ch [] = (ch, true) := rfl

/-- Single-step unfolding of `runSends` on a cons. -/
theorem runSends_cons (semMax : Nat) (ch : Channel) (p : (Nat → Nat) × Nat)
    (rest : List ((Nat → Nat) × Nat)) :
    runSends semMax ch (p :: rest) =
      ((runSends semMax (sendBytes semMax ch p.1 p.2).1 rest).1,
        (sendBytes semMax ch p.1 p.2).2.isNone &&
          (runSends semMax (sendBytes semMax ch p.1 p.2).1 rest).2) := rfl

/-- Filling an otherwise-empty region: from a channel with head 0 and `full`
false, sending a nonempty list of frames whose sizes sum exactly to the space
up to `capacity` succeeds step by step; afterwards head is 0, tail is 0,
`full` is true, the readiness count grew by the number of frames, and every
byte below the starting tail is untouched. -/
theorem runSends_fill (semMax : Nat) (L : List ((Nat → Nat) × Nat)) :
    ∀ ch : Channel, ch.start = 0 → ch.full = false → L ≠ [] →
      (∀ l ∈ L.map Prod.snd, 0 < l) →
      ch.end_ + frameSum L = ch.capacity →
      ch.n_unread + L.length ≤ semMax →
      (runSends semMax ch L).2 = true ∧
      (runSends semMax ch L).1.start = 0 ∧
      (runSends semMax ch L).1.capacity = ch.capacity ∧
      (runSends semMax ch L).1.end_ = 0 ∧
      (runSends semMax ch L).1.full = true ∧
      (runSends semMax ch L).1.n_unread = ch.n_unread + L.length ∧
      ∀ i, i < ch.end_ → (runSends semMax ch L).1.shared_mem i = ch.shared_mem i := by
  induction L with
  | nil => intro ch _ _ hne; exact absurd rfl hne
  | cons p rest ih =>
      intro ch h0 hf _ hpos hsum hsem
      have hss : size_t_size = 8 := rfl
      have hl : 0 < p.2 := hpos p.2 (by simp)
      rw [frameSum_cons] at hsum
      rcases rest with _ | ⟨q, rest2⟩
      · -- last frame: it ends exactly at capacity
        have hend : ch.end_ + size_t_size + p.2 = ch.capacity := by
          simp [frameSum] at hsum; omega
        have hstep := fill_step semMax ch p.1 p.2 h0 hf hl (Nat.le_of_eq hend)
          (by simp at hsem; omega)
        obtain ⟨he, hs, hc, hn, hee, hfull, hpre, _⟩ := hstep
        rw [runSends_cons, runSends_nil]
        refine ⟨?_, ?_, ?_, ?_, ?_, ?_, ?_⟩
        · rw [he]; rfl
        · exact hs
        · exact hc
        · rw [show ((sendBytes semMax ch p.1 p.2).1, true).1.end_ =
            (sendBytes semMax ch p.1 p.2).1.end_ from rfl, hee, hend, Nat.mod_self]
        · exact hfull.mpr hend
        · simp only [List.length_cons, List.length_nil]
          rw [show ((sendBytes semMax ch p.1 p.2).1, true).1.n_unread =
            (sendBytes semMax ch p.1 p.2).1.n_unread from rfl, hn]
        · intro i hi; exact hpre i hi
      · -- an intermediate frame: at least one more frame follows
        have hq : frameSum (q :: rest2) = size_t_size + q.2 + frameSum rest2 :=
          frameSum_cons q rest2
        have hfitlt : ch.end_ + size_t_size + p.2 < ch.capacity := by omega
        have hstep := fill_step semMax ch p.1 p.2 h0 hf hl (Nat.le_of_lt hfitlt)
          (by simp only [List.length_cons] at hsem; omega)
        obtain ⟨he, hs, hc, hn, hee, hfull, hpre, _⟩ := hstep
        have hee2 : (sendBytes semMax ch p.1 p.2).1.end_ = ch.end_ + size_t_size + p.2 := by
          rw [hee, Nat.mod_eq_of_lt hfitlt]
        have hf1 : (sendBytes semMax ch p.1 p.2).1.full = false := by
          cases hb : (sendBytes semMax ch p.1 p.2).1.full
          · rfl
          · exact absurd (hfull.mp hb) (by omega)
        have hih := ih (sendBytes semMax ch p.1 p.2).1 hs hf1 (by simp)
          (by intro l hm; exact hpos l (by simp at hm ⊢; tauto))
          (by rw [hee2, hc]; omega)
          (by rw [hn]; simp only [List.length_cons] at hsem ⊢; omega)
        obtain ⟨ihok, ihs, ihc, ihe, ihfull, ihn, ihpre⟩ := hih
        rw [runSends_cons]
        refine ⟨?_, ?_, ?_, ?_, ?_, ?_, ?_⟩
        · rw [he, ihok]; rfl
        · exact ihs
        · rw [show ((runSends semMax (sendBytes semMax ch p.1 p.2).1 (q :: rest2)).1,
              (sendBytes semMax ch p.1 p.2).2.isNone &&
                (runSends semMax (sendBytes semMax ch p.1 p.2).1 (q :: rest2)).2).1.capacity =
            (runSends semMax (sendBytes semMax ch p.1 p.2).1 (q :: rest2)).1.capacity from rfl,
            ihc, hc]
        · exact ihe
        · exact ihfull
        · rw [show ((runSends semMax (sendBytes semMax ch p.1 p.2).1 (q :: rest2)).1,
              (sendBytes semMax ch p.1 p.2).2.isNone &&
                (runSends semMax (sendBytes semMax ch p.1 p.2).1 (q :: rest2)).2).1.n_unread =
            (runSends semMax (sendBytes semMax ch p.1 p.2).1 (q :: rest2)).1.n_unread from rfl,
            ihn, hn]
          simp only [List.length_cons]
          omega
        · intro i hi
          exact (ihpre i (by omega)).trans (hpre i hi)
/-- `readLen` only looks at the first 8 bytes. -/
theorem readLen_congr (f g : Nat → Nat) (h : ∀ i, i < size_t_size → f i = g i) :
    readLen f = readLen g := by
  unfold readLen
  rw [h 0 (by decide), h 1 (by decide), h 2 (by decide), h 3 (by decide),
    h 4 (by decide), h 5 (by decide), h 6 (by decide), h 7 (by decide)]

/-- Reading back the stored byte representation of a `size_t` value below
2^64 recovers the value. -/
theorem readLen_lenBytes (l : Nat) (h : l < 18446744073709551616) :
    readLen (lenBytes l) = l := by
  unfold readLen lenBytes
  norm_num
  omega

/-- Available space after removing the first frame from an exactly-full
buffer: head `(8 + l) % cap`, tail 0, not full gives back the frame size. -/
theorem avail_after_first (cap l : Nat) (hl : 0 < l) (hfit : size_t_size + l ≤ cap) :
    availableSpace cap ((size_t_size + l) % cap) 0 false = size_t_size + l := by
  rcases Nat.lt_or_ge (size_t_size + l) cap with hlt | hge
  · rw [Nat.mod_eq_of_lt hlt]
    unfold availableSpace size_t_size at *
    rw [if_neg (by omega), if_pos (by omega)]
    omega
  · have heq : size_t_size + l = cap := by omega
    rw [heq, Nat.mod_self]
    unfold availableSpace
    rw [if_neg (by omega), if_neg (by omega), if_pos (by simp)]

/-- Receiving from an exactly-full channel whose oldest frame has its header
(the encoding of `l1`) intact at offset 0: the receive succeeds, clears
`full`, and advances head to `(8 + l1) % capacity`. -/
theorem receive_after_fill (ch : Channel) (l1 : Nat)
    (hstart : ch.start = 0) (hend : ch.end_ = 0) (hfull : ch.full = true)
    (hcount : 0 < ch.n_unread)
    (hheader : ∀ i, i < size_t_size → ch.shared_mem i = lenBytes l1 i)
    (hl1 : 0 < l1) (hfit : size_t_size + l1 ≤ ch.capacity)
    (h64 : l1 < 18446744073709551616) :
    (receiveBytes ch false).1.full = false ∧
    (receiveBytes ch false).1.start = (size_t_size + l1) % ch.capacity ∧
    (receiveBytes ch false).1.end_ = 0 ∧
    (receiveBytes ch false).1.capacity = ch.capacity ∧
    (receiveBytes ch false).2.isReceived = true := by
  have hcap8 : size_t_size < ch.capacity := by unfold size_t_size at *; omega
  have hmod8 : (ch.start + size_t_size) % ch.capacity = size_t_size := by
    rw [hstart, Nat.zero_add, Nat.mod_eq_of_lt hcap8]
  have hlen : readLen (fun i => ch.shared_mem (ch.start + i)) = l1 := by
    rw [readLen_congr (fun i => ch.shared_mem (ch.start + i)) (lenBytes l1)
      (fun i hi => show ch.shared_mem (ch.start + i) = lenBytes l1 i from by
        rw [hstart, Nat.zero_add]; exact hheader i hi)]
    exact readLen_lenBytes l1 h64
  simp only [receiveBytes]
  rw [if_neg (show ¬ ch.n_unread = 0 by omega)]
  simp only [hmod8]
  rw [if_pos (show size_t_size > ch.start by rw [hstart]; unfold size_t_size; omega)]
  simp only [hlen]
  refine ⟨trivial, trivial, hend, trivial, ?_⟩
  split_ifs <;> rfl
/-- Claim C7: for any nonempty sequence of nonzero-length payloads whose frame
sizes (8 + length each) total exactly `capacity`, sending them all on a fresh
channel succeeds, leaves `full` true with exactly zero available space, and a
single subsequent receive clears `full` and makes the reported available space
equal to the size `8 + l1` of the frame just removed (the first one sent). -/
theorem c7_full_then_receive_frees_frame (semMax cap : Nat) (src1 : Nat → Nat) (l1 : Nat)
    (rest : List ((Nat → Nat) × Nat))
    (hl1 : 0 < l1)
    (hpos : ∀ l ∈ (((src1, l1) :: rest).map Prod.snd), 0 < l)
    (hsum : frameSum ((src1, l1) :: rest) = cap)
    (hcap64 : cap < 18446744073709551616)
    (hsem : ((src1, l1) :: rest).length ≤ semMax) :
    (runSends semMax (mkChannel cap) ((src1, l1) :: rest)).2 = true ∧
    (runSends semMax (mkChannel cap) ((src1, l1) :: rest)).1.full = true ∧
    availableSpace cap
      (runSends semMax (mkChannel cap) ((src1, l1) :: rest)).1.start
      (runSends semMax (mkChannel cap) ((src1, l1) :: rest)).1.end_
      (runSends semMax (mkChannel cap) ((src1, l1) :: rest)).1.full = 0 ∧
    (receiveBytes (runSends semMax (mkChannel cap) ((src1, l1) :: rest)).1 false).1.full
      = false ∧
    availableSpace cap
      (receiveBytes (runSends semMax (mkChannel cap) ((src1, l1) :: rest)).1 false).1.start
      (receiveBytes (runSends semMax (mkChannel cap) ((src1, l1) :: rest)).1 false).1.end_
      (receiveBytes (runSends semMax (mkChannel cap) ((src1, l1) :: rest)).1 false).1.full
      = size_t_size + l1 := by
  have hss : size_t_size = 8 := rfl
  have hm0 : (mkChannel cap).end_ = 0 := rfl
  have hmc : (mkChannel cap).capacity = cap := rfl
  have hmn : (mkChannel cap).n_unread = 0 := rfl
  have hfs : frameSum ((src1, l1) :: rest) = size_t_size + l1 + frameSum rest :=
    frameSum_cons (src1, l1) rest
  have hfit1 : (mkChannel cap).end_ + size_t_size + l1 ≤ (mkChannel cap).capacity := by
    rw [hm0, hmc]; omega
  have hsem1 : (mkChannel cap).n_unread + 1 ≤ semMax := by
    rw [hmn]; simp only [List.length_cons] at hsem; omega
  have hstep := fill_step semMax (mkChannel cap) src1 l1 rfl rfl hl1 hfit1 hsem1
  obtain ⟨e1, s1, c1, n1, ee1, full1, pre1, hdr1⟩ := hstep
  have hdr1i : ∀ i, i < size_t_size →
      (sendBytes semMax (mkChannel cap) src1 l1).1.shared_mem i = lenBytes l1 i := by
    intro i hi
    have h := hdr1 i hi
    rw [hm0, Nat.zero_add] at h
    exact h
  have hfillL := runSends_fill semMax ((src1, l1) :: rest) (mkChannel cap) rfl rfl
    (by simp) hpos (by rw [hm0, hmc, Nat.zero_add]; exact hsum)
    (by rw [hmn]; omega)
  obtain ⟨ok, Sstart, Scap, Send, Sfull, Sn, _⟩ := hfillL
  have hScap : (runSends semMax (mkChannel cap) ((src1, l1) :: rest)).1.capacity = cap := by
    rw [Scap, hmc]
  have hheader : ∀ i, i < size_t_size →
      (runSends semMax (mkChannel cap) ((src1, l1) :: rest)).1.shared_mem i
        = lenBytes l1 i := by
    intro i hi
    rcases rest with _ | ⟨q, rest2⟩
    · have : (runSends semMax (mkChannel cap) [(src1, l1)]).1
          = (sendBytes semMax (mkChannel cap) src1 l1).1 := by
        rw [runSends_cons, runSends_nil]
      rw [this]
      exact hdr1i i hi
    · have hq : frameSum (q :: rest2) = size_t_size + q.2 + frameSum rest2 :=
        frameSum_cons q rest2
      have hqpos : 0 < q.2 := hpos q.2 (by simp)
      have hlt : (mkChannel cap).end_ + size_t_size + l1 < cap := by
        rw [hm0]; omega
      have hee2 : (sendBytes semMax (mkChannel cap) src1 l1).1.end_
          = size_t_size + l1 := by
        rw [ee1, hmc, hm0, Nat.zero_add, Nat.mod_eq_of_lt (by omega)]
      have hf1 : (sendBytes semMax (mkChannel cap) src1 l1).1.full = false := by
        cases hb : (sendBytes semMax (mkChannel cap) src1 l1).1.full
        · rfl
        · exact absurd (full1.mp hb) (by rw [hm0, hmc]; omega)
      have hfill2 := runSends_fill semMax (q :: rest2)
        (sendBytes semMax (mkChannel cap) src1 l1).1 s1 hf1 (by simp)
        (by intro l hm; exact hpos l (by simp at hm ⊢; tauto))
        (by rw [hee2, c1, hmc]; omega)
        (by rw [n1, hmn]; simp only [List.length_cons] at hsem ⊢; omega)
      have hpre2 := hfill2.2.2.2.2.2.2
      have hproj : (runSends semMax (mkChannel cap) ((src1, l1) :: q :: rest2)).1
          = (runSends semMax (sendBytes semMax (mkChannel cap) src1 l1).1
              (q :: rest2)).1 := by
        rw [runSends_cons]
      rw [hproj, hpre2 i (by rw [hee2]; omega), hdr1i i hi]
  have hSn : 0 < (runSends semMax (mkChannel cap) ((src1, l1) :: rest)).1.n_unread := by
    rw [Sn, hmn]; simp only [List.length_cons]; omega
  have hfitS : size_t_size + l1 ≤
      (runSends semMax (mkChannel cap) ((src1, l1) :: rest)).1.capacity := by
    rw [hScap]; omega
  have h64 : l1 < 18446744073709551616 := by omega
  have hrecv := receive_after_fill
    (runSends semMax (mkChannel cap) ((src1, l1) :: rest)).1 l1
    Sstart Send Sfull hSn hheader hl1 hfitS h64
  obtain ⟨Rfull, Rstart, Rend, _, _⟩ := hrecv
  refine ⟨ok, Sfull, ?_, Rfull, ?_⟩
  · rw [Sstart, Send, Sfull]
    rfl
  · rw [Rfull, Rend, Rstart, hScap]
    exact avail_after_first cap l1 hl1 (by omega)

/-- Witness for claim C7: capacity 32 filled by a 4-byte payload (frame 12)
and a 12-byte payload (frame 20). -/
theorem c7_full_then_receive_frees_frame_witness :
    0 < 4 ∧
    (∀ l ∈ (((srcOf [1, 2, 3, 4], 4) :: [(srcOf payloadB, 12)]).map Prod.snd), 0 < l) ∧
    frameSum ((srcOf [1, 2, 3, 4], 4) :: [(srcOf payloadB, 12)]) = 32 ∧
    (32 : Nat) < 18446744073709551616 ∧
    ((srcOf [1, 2, 3, 4], 4) :: [(srcOf payloadB, 12)]).length ≤ 5 ∧
    ((runSends 5 (mkChannel 32) ((srcOf [1, 2, 3, 4], 4) :: [(srcOf payloadB, 12)])).2 = true ∧
     (runSends 5 (mkChannel 32) ((srcOf [1, 2, 3, 4], 4) :: [(srcOf payloadB, 12)])).1.full = true ∧
     availableSpace 32
       (runSends 5 (mkChannel 32) ((srcOf [1, 2, 3, 4], 4) :: [(srcOf payloadB, 12)])).1.start
       (runSends 5 (mkChannel 32) ((srcOf [1, 2, 3, 4], 4) :: [(srcOf payloadB, 12)])).1.end_
       (runSends 5 (mkChannel 32) ((srcOf [1, 2, 3, 4], 4) :: [(srcOf payloadB, 12)])).1.full = 0 ∧
     (receiveBytes (runSends 5 (mkChannel 32)
       ((srcOf [1, 2, 3, 4], 4) :: [(srcOf payloadB, 12)])).1 false).1.full = false ∧
     availableSpace 32
       (receiveBytes (runSends 5 (mkChannel 32)
         ((srcOf [1, 2, 3, 4], 4) :: [(srcOf payloadB, 12)])).1 false).1.start
       (receiveBytes (runSends 5 (mkChannel 32)
         ((srcOf [1, 2, 3, 4], 4) :: [(srcOf payloadB, 12)])).1 false).1.end_
       (receiveBytes (runSends 5 (mkChannel 32)
         ((srcOf [1, 2, 3, 4], 4) :: [(srcOf payloadB, 12)])).1 false).1.full
       = size_t_size + 4) :=
  ⟨by decide, by decide, by decide, by decide, by decide,
    c7_full_then_receive_frees_frame 5 32 (srcOf [1, 2, 3, 4]) 4
      [(srcOf payloadB, 12)] (by decide) (by decide) (by decide) (by decide) (by decide)⟩

end snakefish
